import Mathlib

set_option maxRecDepth 100000

/-!
Verification development for the Saul-ai legal-document summarization server.

The definitions below are a shallow embedding of the Python sources under
`server/`: `document_validator.py` (heuristic content validator),
`summarizer.py` (JSON extraction, chunking, single-pass and map-reduce
summarization request construction) and `app.py` (the validation/summarization
call sequence of the HTTP handlers, with transport and file parsing treated as
external collaborators).  Text is modelled as `List Char`; Python float
arithmetic on the small score constants is modelled exactly over `ℚ`; Python
string primitives (`strip`, `split`, `lower`, substring containment) are
modelled on their ASCII behaviour, which is the fragment the lexical tables
exercise.
-/

/-- Whitespace set used by Python `str.strip()` / `str.split()` (ASCII part). -/
def isPyWs (c : Char) : Bool :=
  c == ' ' || c == '\t' || c == '\n' || c == '\r' || c == '\x0b' || c == '\x0c'

/-- Model of Python `str.strip()`: drop leading and trailing whitespace. -/
def pyStrip (s : List Char) : List Char :=
  ((s.dropWhile isPyWs).reverse.dropWhile isPyWs).reverse

/-- Model of Python `str.lower()` (ASCII case folding). -/
def pyLower (s : List Char) : List Char :=
  s.map Char.toLower

/-- Helper for `pySplit`: accumulate the current word (reversed) while
scanning. -/
def pySplitAux : List Char → List Char → List (List Char)
  | [], acc => if acc.isEmpty then [] else [acc.reverse]
  | c :: cs, acc =>
    if isPyWs c then
      if acc.isEmpty then pySplitAux cs [] else acc.reverse :: pySplitAux cs []
    else
      pySplitAux cs (c :: acc)

/-- Model of Python `str.split()` with no separator: split on whitespace runs,
discarding empty fields. -/
def pySplit (s : List Char) : List (List Char) :=
  pySplitAux s []

/-- Model of the Python substring test `needle in hay`. -/
def hasSubstring : List Char → List Char → Bool
  | hay, needle =>
    if needle.isPrefixOf hay then true
    else
      match hay with
      | [] => false
      | _ :: t => hasSubstring t needle

/-- True when any of the given words occurs as a substring of `tl`
(Python `any(word in text_lower for word in [...])`). -/
def anyHas (tl : List Char) (ws : List String) : Bool :=
  ws.any (fun w => hasSubstring tl w.toList)

/-- Word characters for the regex `\b` boundary: `[a-zA-Z0-9_]`. -/
def isWordChar (c : Char) : Bool :=
  c.isAlphanum || c == '_'

/-- One alternative of a legal pattern: a sequence of literal words that must
appear separated by `\s+`, delimited by `\b` on both sides. -/
abbrev Phrase := List (List Char)

/-- One entry of `legal_patterns`: an alternation of phrases.  Every regex in
`document_validator.py` has the shape
`\b(word1\s+word2\s+...|...)\b`, so this is a faithful representation. -/
abbrev LegalPattern := List Phrase

/-- Try to match a phrase at the head of `t`: each word literally, consecutive
words separated by at least one whitespace character (`\s+`), and a word
boundary after the final word. -/
def matchPhraseAt : Phrase → List Char → Bool
  | [], _ => true
  | [w], t =>
    w.isPrefixOf t &&
      (match t.drop w.length with
       | [] => true
       | c :: _ => !isWordChar c)
  | w :: w2 :: ws, t =>
    w.isPrefixOf t &&
      (match t.drop w.length with
       | [] => false
       | c :: cs => isPyWs c && matchPhraseAt (w2 :: ws) ((c :: cs).dropWhile isPyWs))

/-- Scan for a phrase match starting at a position preceded by a non-word
character (the leading `\b`); `prevWord` records whether the previous
character was a word character. -/
def searchPatternAux (alts : LegalPattern) : List Char → Bool → Bool
  | [], _ => false
  | c :: cs, prevWord =>
    (!prevWord && alts.any (fun a => matchPhraseAt a (c :: cs))) ||
      searchPatternAux alts cs (isWordChar c)

/-- Model of `re.search(pattern, text_lower, re.IGNORECASE)` for the phrase
patterns of the validator (the text is already lowercased, as in the source). -/
def searchPattern (alts : LegalPattern) (t : List Char) : Bool :=
  searchPatternAux alts t false

/-- The three lexical tables of `DocumentValidator.__init__`, modelled as
injected configuration so that theorems can quantify over them. -/
structure ValidatorTables where
  legalKeywords : List (List Char)
  legalPatterns : List LegalPattern
  nonLegalIndicators : List (List Char)

/-- The exact `legal_keywords` list of `document_validator.py` (including the
duplicated entry for the word law). -/
def defaultLegalKeywords : List (List Char) :=
  ["contract", "agreement", "terms", "conditions", "clause", "hereby",
   "whereas", "party", "parties", "legal", "law", "court", "jurisdiction",
   "liability", "damages", "breach", "obligations", "rights", "duties",
   "employment", "lease", "rental", "purchase", "sale", "confidentiality",
   "non-disclosure", "nda", "copyright", "intellectual property", "patent",
   "trademark", "license", "warranty", "guarantee", "indemnity", "settlement",
   "dispute", "arbitration", "mediation", "executor", "beneficiary", "trust",
   "will", "testament", "probate", "divorce", "custody", "alimony", "spouse",
   "defendant", "plaintiff", "attorney", "counsel", "legal representative",
   "incorporate", "corporation", "partnership", "llc", "business entity",
   "bylaws", "articles", "shareholder", "stockholder", "board of directors",
   "merger", "acquisition", "securities", "compliance", "regulatory",
   "statute", "ordinance", "regulation", "code", "act", "bill", "law",
   "constitutional", "federal", "state", "municipal", "government"].map String.toList

/-- The exact `legal_patterns` list, each regex decomposed into its
alternatives of whitespace-separated words. -/
def defaultLegalPatterns : List LegalPattern :=
  [[[ "this".toList, "agreement".toList], ["this".toList, "contract".toList]],
   [[ "party".toList, "of".toList, "the".toList, "first".toList, "part".toList],
    ["party".toList, "of".toList, "the".toList, "second".toList, "part".toList]],
   [[ "whereas".toList], ["now".toList, "therefore".toList]],
   [[ "in".toList, "witness".toList, "whereof".toList]],
   [[ "hereby".toList, "agree".toList], ["hereby".toList, "covenant".toList],
    ["hereby".toList, "warrant".toList]],
   [[ "subject".toList, "to".toList, "the".toList, "terms".toList]],
   [[ "effective".toList, "date".toList], ["execution".toList, "date".toList]],
   [[ "governing".toList, "law".toList], ["applicable".toList, "law".toList]],
   [[ "force".toList, "and".toList, "effect".toList]],
   [[ "null".toList, "and".toList, "void".toList]],
   [[ "legal".toList, "counsel".toList], ["legal".toList, "advice".toList]],
   [[ "court".toList, "of".toList, "competent".toList, "jurisdiction".toList]]]

/-- The exact `non_legal_indicators` list (including the duplicated entry for
the word class). -/
def defaultNonLegalIndicators : List (List Char) :=
  ["recipe", "cooking", "ingredients", "bake", "cook", "food", "meal",
   "story", "novel", "chapter", "fiction", "character", "plot",
   "tutorial", "how-to", "step by step", "guide", "instructions",
   "blog", "post", "social media", "tweet", "facebook", "instagram",
   "email", "message", "chat", "conversation", "text message",
   "shopping list", "grocery", "buy", "purchase list", "todo",
   "diary", "journal", "personal", "thoughts", "feelings",
   "homework", "assignment", "school", "student", "teacher", "class",
   "poem", "poetry", "verse", "rhyme", "stanza",
   "manual", "user guide", "technical documentation", "software",
   "code", "programming", "function", "variable", "class", "import"].map String.toList

/-- The tables actually installed by `DocumentValidator.__init__`. -/
def defaultTables : ValidatorTables :=
  ⟨defaultLegalKeywords, defaultLegalPatterns, defaultNonLegalIndicators⟩

/-- `sum(1 for word in self.legal_keywords if word in text_lower)`. -/
def legalWordCount (tb : ValidatorTables) (tl : List Char) : Nat :=
  (tb.legalKeywords.filter (fun w => hasSubstring tl w)).length

/-- Number of `legal_patterns` entries with a `re.search` match. -/
def patternMatchCount (tb : ValidatorTables) (tl : List Char) : Nat :=
  (tb.legalPatterns.filter (fun p => searchPattern p tl)).length

/-- `sum(1 for indicator in self.non_legal_indicators if indicator in text_lower)`. -/
def nonLegalCount (tb : ValidatorTables) (tl : List Char) : Nat :=
  (tb.nonLegalIndicators.filter (fun w => hasSubstring tl w)).length

/-- `legal_word_ratio = legal_word_count / len(self.legal_keywords)`. -/
def legalWordFrac (tb : ValidatorTables) (tl : List Char) : ℚ :=
  (legalWordCount tb tl : ℚ) / (tb.legalKeywords.length : ℚ)

/-- `pattern_ratio = pattern_matches / len(self.legal_patterns)`. -/
def patternFrac (tb : ValidatorTables) (tl : List Char) : ℚ :=
  (patternMatchCount tb tl : ℚ) / (tb.legalPatterns.length : ℚ)

/-- `non_legal_ratio = non_legal_count / len(self.non_legal_indicators)`. -/
def nonLegalFrac (tb : ValidatorTables) (tl : List Char) : ℚ :=
  (nonLegalCount tb tl : ℚ) / (tb.nonLegalIndicators.length : ℚ)

/-- `legal_score = (legal_word_ratio * 0.6) + (pattern_ratio * 0.4)`. -/
def legalScoreQ (tb : ValidatorTables) (tl : List Char) : ℚ :=
  legalWordFrac tb tl * 0.6 + patternFrac tb tl * 0.4

/-- `confidence_score = max(0.0, legal_score - (non_legal_ratio * 0.3))`. -/
def confidenceScoreQ (tb : ValidatorTables) (tl : List Char) : ℚ :=
  max 0 (legalScoreQ tb tl - nonLegalFrac tb tl * 0.3)

/-- Embedding of `DocumentValidator._get_specific_non_legal_reason`. -/
def specificNonLegalReason (tl : List Char) : String :=
  if anyHas tl ["recipe", "cooking", "ingredients", "bake"] then
    "This appears to be a recipe or cooking document, not a legal document"
  else if anyHas tl ["story", "novel", "chapter", "fiction"] then
    "This appears to be a story or fictional content, not a legal document"
  else if anyHas tl ["code", "function", "import", "programming"] then
    "This appears to be source code or technical documentation, not a legal document"
  else if anyHas tl ["email", "message", "chat", "conversation"] then
    "This appears to be a personal message or email, not a legal document"
  else if anyHas tl ["homework", "assignment", "school", "student"] then
    "This appears to be educational content, not a legal document"
  else
    "Document does not appear to contain legal content"

/-- Embedding of `DocumentValidator.validate_document_content`, returning the
`(is_valid, reason, confidence_score)` triple of the source. -/
def validateDocumentContent (tb : ValidatorTables) (text : List Char) :
    Bool × String × ℚ :=
  if text = [] ∨ (pyStrip text).length < 50 then
    (false, "Document is too short to analyze", 0)
  else if (pySplit (pyLower text)).length < 20 then
    (false, "Document is too short to be a legal document", 0)
  else if confidenceScoreQ tb (pyLower text) ≥ (0.15 : ℚ) then
    (true, "Document appears to be legal-related", confidenceScoreQ tb (pyLower text))
  else if nonLegalFrac tb (pyLower text) > (0.1 : ℚ) then
    (false, specificNonLegalReason (pyLower text), confidenceScoreQ tb (pyLower text))
  else
    (false, "Document does not appear to contain legal content",
      confidenceScoreQ tb (pyLower text))

/-- Loop body of `DocumentSummarizer._chunk_text`, iterating the slice start
`i`.  The Python `while` loop terminates exactly when `overlap < max_chars`
(otherwise `i` never advances); in that regime it runs at most
`text.length + 1` iterations, so the fuel used by `chunkText` below never runs
out and the fuelled recursion computes the same chunks as the source loop. -/
def chunkLoop (text : List Char) (maxChars overlap : Nat) : Nat → Nat → List (List Char)
  | 0, _ => []
  | fuel + 1, i =>
    if i < text.length then
      let e := min (i + maxChars) text.length
      let chunk := (text.drop i).take (e - i)
      if e = text.length then [chunk]
      else chunk :: chunkLoop text maxChars overlap fuel (e - overlap)
    else []

/-- Embedding of `DocumentSummarizer._chunk_text` (defaults
`max_chars=12000`, `overlap=500`). -/
def chunkText (text : List Char) (maxChars overlap : Nat) : List (List Char) :=
  if text.length ≤ maxChars then [text]
  else chunkLoop text maxChars overlap (text.length + 1) 0

/-- Drop the declared overlap from the head of every chunk and concatenate. -/
def glueChunks (overlap : Nat) (cs : List (List Char)) : List Char :=
  (cs.map (List.drop overlap)).flatten

/-- Reassembly described by the round-trip property: all of the first chunk,
then every later chunk with its first `overlap` characters removed. -/
def reassemble (overlap : Nat) : List (List Char) → List Char
  | [] => []
  | c :: rest => c ++ glueChunks overlap rest

/-- JSON values as produced by `json.loads` (objects keep their key order;
numbers are modelled exactly over `ℚ`). -/
inductive Json where
  | null
  | bool (b : Bool)
  | num (q : ℚ)
  | str (s : List Char)
  | arr (xs : List Json)
  | obj (kvs : List (List Char × Json))

/-- Whitespace accepted around JSON tokens by `json.loads`. -/
def isJsonWs (c : Char) : Bool :=
  c == ' ' || c == '\t' || c == '\n' || c == '\r'

/-- Value of a hexadecimal digit, for `\u` escapes. -/
def hexDigit (c : Char) : Option Nat :=
  if '0' ≤ c ∧ c ≤ '9' then some (c.toNat - 48)
  else if 'a' ≤ c ∧ c ≤ 'f' then some (c.toNat - 87)
  else if 'A' ≤ c ∧ c ≤ 'F' then some (c.toNat - 55)
  else none

/-- Single-character JSON string escapes. -/
def escapeChar (e : Char) : Option Char :=
  if e == '\"' then some '\"'
  else if e == '\\' then some '\\'
  else if e == '/' then some '/'
  else if e == 'b' then some '\x08'
  else if e == 'f' then some '\x0c'
  else if e == 'n' then some '\n'
  else if e == 'r' then some '\r'
  else if e == 't' then some '\t'
  else none

/-- Digits to the natural number they denote in base 10. -/
def digitsToNat (ds : List Char) : Nat :=
  ds.foldl (fun a c => a * 10 + (c.toNat - 48)) 0

/-- Parse a JSON number (`-? (0 | [1-9][0-9]*) (\.[0-9]+)? ([eE][+-]?[0-9]+)?`)
from the head of `s`, exactly as the `json` module number regex does; the
decimal literal is interpreted exactly in `ℚ`. -/
def parseNumber (s : List Char) : Option (Json × List Char) :=
  let negAndRest : Bool × List Char :=
    match s with
    | '-' :: t => (true, t)
    | _ => (false, s)
  let neg := negAndRest.1
  let s1 := negAndRest.2
  match s1 with
  | [] => none
  | c :: _ =>
    if c.isDigit then
      let ids := if c == '0' then [c] else s1.takeWhile Char.isDigit
      let s2 := if c == '0' then s1.drop 1 else s1.dropWhile Char.isDigit
      let fracAndRest : List Char × List Char :=
        match s2 with
        | '.' :: t =>
          let fd := t.takeWhile Char.isDigit
          if fd.isEmpty then ([], s2) else (fd, t.dropWhile Char.isDigit)
        | _ => ([], s2)
      let fds := fracAndRest.1
      let s3 := fracAndRest.2
      let expAndRest : Bool × Bool × List Char × List Char :=
        match s3 with
        | e :: t =>
          if e == 'e' || e == 'E' then
            let signAndRest : Bool × List Char :=
              match t with
              | '+' :: u => (false, u)
              | '-' :: u => (true, u)
              | _ => (false, t)
            let ed := signAndRest.2.takeWhile Char.isDigit
            if ed.isEmpty then (false, false, [], s3)
            else (true, signAndRest.1, ed, signAndRest.2.dropWhile Char.isDigit)
          else (false, false, [], s3)
        | [] => (false, false, [], s3)
      let hasExp := expAndRest.1
      let expNeg := expAndRest.2.1
      let eds := expAndRest.2.2.1
      let s4 := expAndRest.2.2.2
      let mag : ℚ :=
        if fds.isEmpty && !hasExp then (digitsToNat ids : ℚ)
        else
          let base : ℚ := (digitsToNat ids : ℚ) + (digitsToNat fds : ℚ) / ((10 : ℚ) ^ fds.length)
          if hasExp then
            if expNeg then base / ((10 : ℚ) ^ digitsToNat eds)
            else base * ((10 : ℚ) ^ digitsToNat eds)
          else base
      some (Json.num (if neg then -mag else mag), s4)
    else none

mutual

/-- Parse one JSON value from the head of `s` (leading whitespace allowed).
The fuel only bounds recursion depth; `jsonLoads` supplies enough for its
input. -/
def parseVal : Nat → List Char → Option (Json × List Char)
  | 0, _ => none
  | fuel + 1, s =>
    let s := s.dropWhile isJsonWs
    match s with
    | [] => none
    | c :: rest =>
      if c == '\x7b' then
        match rest.dropWhile isJsonWs with
        | '\x7d' :: rem => some (Json.obj [], rem)
        | _ =>
          match parseMembers fuel rest with
          | some (kvs, rem) => some (Json.obj kvs, rem)
          | none => none
      else if c == '[' then
        match rest.dropWhile isJsonWs with
        | ']' :: rem => some (Json.arr [], rem)
        | _ =>
          match parseItems fuel rest with
          | some (vs, rem) => some (Json.arr vs, rem)
          | none => none
      else if c == '\"' then
        match parseStrAux fuel rest with
        | some (str, rem) => some (Json.str str, rem)
        | none => none
      else if "true".toList.isPrefixOf s then some (Json.bool true, s.drop 4)
      else if "false".toList.isPrefixOf s then some (Json.bool false, s.drop 5)
      else if "null".toList.isPrefixOf s then some (Json.null, s.drop 4)
      else parseNumber s

/-- Parse the members of an object after its opening brace. -/
def parseMembers : Nat → List Char → Option (List (List Char × Json) × List Char)
  | 0, _ => none
  | fuel + 1, s =>
    match s.dropWhile isJsonWs with
    | '\"' :: rest =>
      match parseStrAux fuel rest with
      | some (key, rem) =>
        match rem.dropWhile isJsonWs with
        | ':' :: rem2 =>
          match parseVal fuel rem2 with
          | some (v, rem3) =>
            match rem3.dropWhile isJsonWs with
            | ',' :: rem4 =>
              match parseMembers fuel rem4 with
              | some (kvs, rem5) => some ((key, v) :: kvs, rem5)
              | none => none
            | '\x7d' :: rem4 => some ([(key, v)], rem4)
            | _ => none
          | none => none
        | _ => none
      | none => none
    | _ => none

/-- Parse the items of an array after its opening bracket. -/
def parseItems : Nat → List Char → Option (List Json × List Char)
  | 0, _ => none
  | fuel + 1, s =>
    match parseVal fuel s with
    | some (v, rem) =>
      match rem.dropWhile isJsonWs with
      | ',' :: rem2 =>
        match parseItems fuel rem2 with
        | some (vs, rem3) => some (v :: vs, rem3)
        | none => none
      | ']' :: rem2 => some ([v], rem2)
      | _ => none
    | none => none

/-- Parse the body of a JSON string after its opening quote. -/
def parseStrAux : Nat → List Char → Option (List Char × List Char)
  | 0, _ => none
  | fuel + 1, s =>
    match s with
    | [] => none
    | c :: rest =>
      if c == '\"' then some ([], rest)
      else if c == '\\' then
        match rest with
        | [] => none
        | e :: rest2 =>
          if e == 'u' then
            match rest2 with
            | h1 :: h2 :: h3 :: h4 :: rest3 =>
              match hexDigit h1, hexDigit h2, hexDigit h3, hexDigit h4 with
              | some a, some b, some c2, some d =>
                match parseStrAux fuel rest3 with
                | some (tail, rem) =>
                  some (Char.ofNat (((a * 16 + b) * 16 + c2) * 16 + d) :: tail, rem)
                | none => none
              | _, _, _, _ => none
            | _ => none
          else
            match escapeChar e with
            | some ec =>
              match parseStrAux fuel rest2 with
              | some (tail, rem) => some (ec :: tail, rem)
              | none => none
            | none => none
      else
        match parseStrAux fuel rest with
        | some (tail, rem) => some (c :: tail, rem)
        | none => none

end

/-- Model of `json.loads`: parse one value, then require only whitespace to
remain.  The fuel `2 * length + 16` dominates the recursion depth on any
input, since every recursive call first consumes at least one character or
descends into a value that does. -/
def jsonLoads (s : List Char) : Option Json :=
  match parseVal (2 * s.length + 16) s with
  | some (v, rem) => if (rem.dropWhile isJsonWs).isEmpty then some v else none
  | none => none

/-- Does a parsed JSON object carry the given key at top level? -/
def Json.hasKey : Json → List Char → Bool
  | .obj kvs, k => kvs.any (fun kv => kv.1 == k)
  | _, _ => false

/-- Model of `re.sub(r"^``` + `(?:json)?\s*", "", s)`: remove one leading fence
marker, an optional language tag, and the whitespace after them. -/
def stripLeadingFence (s : List Char) : List Char :=
  if "```".toList.isPrefixOf s then
    let t := s.drop 3
    let t := if "json".toList.isPrefixOf t then t.drop 4 else t
    t.dropWhile isPyWs
  else s

/-- Model of `re.sub(r"\s*``` + `$", "", s)`: remove one trailing fence marker
together with the whitespace run just before it. -/
def stripTrailingFence (s : List Char) : List Char :=
  if "```".toList.isSuffixOf s then
    let t := s.take (s.length - 3)
    (t.reverse.dropWhile isPyWs).reverse
  else s

/-- The `find("\x7b")` / `rfind("\x7d")` slicing step of `_force_json`: when a
first opening brace precedes the last closing brace, cut to the inclusive span
between them; otherwise leave the string unchanged. -/
def bracketSlice (s : List Char) : List Char :=
  match s.findIdx? (· == '\x7b'), s.reverse.findIdx? (· == '\x7d') with
  | some start, some ridx =>
    let e := s.length - 1 - ridx
    if start < e then (s.drop start).take (e + 1 - start) else s
  | _, _ => s

/-- The candidate string `_force_json` finally hands to `json.loads`:
`strip`, then fence removal, then brace slicing, in source order. -/
def extractCandidate (s : List Char) : List Char :=
  bracketSlice (stripTrailingFence (stripLeadingFence (pyStrip s)))

/-- Embedding of `DocumentSummarizer._force_json`.  On parse failure the
raised `ValueError` is a function of the failing candidate string, which the
error payload records. -/
def forceJson (s : List Char) : Except (List Char) Json :=
  match jsonLoads (extractCandidate s) with
  | some v => Except.ok v
  | none => Except.error (extractCandidate s)

/-- Minimal JSON string escaping for serialization. -/
def escapeDumpChar (c : Char) : List Char :=
  if c == '\"' then ['\\', '\"']
  else if c == '\\' then ['\\', '\\']
  else if c == '\n' then ['\\', 'n']
  else if c == '\t' then ['\\', 't']
  else if c == '\r' then ['\\', 'r']
  else [c]

/-- Escape a whole string body. -/
def escapeDump (s : List Char) : List Char :=
  (s.map escapeDumpChar).flatten

mutual

/-- Serialization of a JSON value, standing in for `json.dumps` when the
aggregator request embeds the partial summaries.  The source pretty-prints
with `indent=2`; no claim inspects this payload, so the compact layout is the
only simplification. -/
def dumpJson : Json → List Char
  | .null => "null".toList
  | .bool true => "true".toList
  | .bool false => "false".toList
  | .num q =>
    (toString q.num).toList ++ (if q.den == 1 then [] else '/' :: (toString q.den).toList)
  | .str s => '\"' :: (escapeDump s ++ ['\"'])
  | .arr xs => '[' :: (dumpArr xs ++ [']'])
  | .obj kvs => '\x7b' :: (dumpMembers kvs ++ ['\x7d'])

/-- Serialize array items, comma separated. -/
def dumpArr : List Json → List Char
  | [] => []
  | [x] => dumpJson x
  | x :: y :: xs => dumpJson x ++ ',' :: ' ' :: dumpArr (y :: xs)

/-- Serialize object members, comma separated. -/
def dumpMembers : List (List Char × Json) → List Char
  | [] => []
  | [(k, v)] => '\"' :: (escapeDump k ++ '\"' :: ':' :: ' ' :: dumpJson v)
  | (k, v) :: m :: kvs =>
    ('\"' :: (escapeDump k ++ '\"' :: ':' :: ' ' :: dumpJson v)) ++
      ',' :: ' ' :: dumpMembers (m :: kvs)

end

/-- One chat message of a Groq API request. -/
structure ChatMessage where
  role : String
  content : List Char
deriving DecidableEq

/-- The fixed system prompt of `DocumentSummarizer.__init__`. -/
def systemPrompt : List Char :=
  ("You are a precise legal document summarizer. Analyze the document and return ONLY valid JSON with these exact keys:\n- full_summary: A comprehensive 4-6 paragraph summary\n- key_points: Array of concise bullet points (5-8 points)\n- critical_clauses: Array of objects with \x27title\x27 and \x27description\x27 fields for important legal clauses\n- recommendations: Array of actionable recommendations (4-6 points)\n\nFormat critical_clauses as: [\x7b\x27title\x27: \x27Clause Name\x27, \x27description\x27: \x27Detailed explanation of the clause and its implications\x27\x7d]\nNo commentary, no code fences, only valid JSON.").toList

/-- The fixed part of the `_single_pass` user prompt, up to and including
`"Document:\n"`; the document text is appended after it. -/
def singlePassHeader : List Char :=
  ("Analyze this legal document and provide a comprehensive summary. Focus on identifying key employment terms, salary, benefits, restrictive clauses, and any provisions that may impact the parties involved.\n\nReturn JSON with:\n- full_summary: 4-6 paragraph comprehensive analysis\n- key_points: 5-8 concise bullet points of main terms\n- critical_clauses: Array of important clauses with titles and detailed descriptions\n- recommendations: 4-6 actionable recommendations\n\nDocument:\n").toList

/-- The `_single_pass` user prompt: the header followed by `text[:10000]`. -/
def singlePassUserPrompt (text : List Char) : List Char :=
  singlePassHeader ++ text.take 10000

/-- The messages `_single_pass` sends to the API. -/
def singlePassMessages (text : List Char) : List ChatMessage :=
  [⟨"system", systemPrompt⟩, ⟨"user", singlePassUserPrompt text⟩]

/-- The per-chunk user prompt of `summarise_document` (chunk `idx` of
`total`, 1-based). -/
def chunkUserPrompt (idx total : Nat) (chunk : List Char) : List Char :=
  ("Analyze chunk ").toList ++ (toString idx).toList ++ ['/'] ++ (toString total).toList ++
    (" of a legal document:\nExtract key information and return JSON with short lists for key_points and critical_clauses, brief full_summary (2-3 sentences), and relevant recommendations.\n\n").toList ++
    chunk

/-- The messages sent for one chunk. -/
def chunkMessages (idx total : Nat) (chunk : List Char) : List ChatMessage :=
  [⟨"system", systemPrompt⟩, ⟨"user", chunkUserPrompt idx total chunk⟩]

/-- The aggregator user prompt combining the partial analyses. -/
def aggregatorUserPrompt (partials : List Json) : List Char :=
  ("Combine these partial legal document analyses into one comprehensive summary. Create a cohesive full_summary (4-6 paragraphs), merge and deduplicate key_points, combine critical_clauses (with titles and descriptions), and provide actionable recommendations.\n\nPartial analyses:\n").toList ++
    dumpJson (Json.arr partials)

/-- The messages of the final aggregation request. -/
def aggregatorMessages (partials : List Json) : List ChatMessage :=
  [⟨"system", systemPrompt⟩, ⟨"user", aggregatorUserPrompt partials⟩]

/-- Errors `summarise_document` can raise: the too-short `ValueError` and the
`_force_json` parse failure (carrying the candidate string the parse error is
derived from). -/
inductive SummError where
  | tooShort
  | parseFailed (candidate : List Char)
deriving DecidableEq

/-- The per-chunk loop of `summarise_document`: one API request per chunk,
each raw reply passed through `_force_json`; the first failure aborts the
loop and propagates.  Returns the partial summaries together with the list of
API requests issued, in order. -/
def processChunks (llm : List ChatMessage → List Char) (total : Nat) :
    List (List Char) → Nat → Except (List Char) (List Json) × List (List ChatMessage)
  | [], _ => (Except.ok [], [])
  | chunk :: rest, idx =>
    let msgs := chunkMessages idx total chunk
    match forceJson (llm msgs) with
    | Except.error c => (Except.error c, [msgs])
    | Except.ok p =>
      match processChunks llm total rest (idx + 1) with
      | (Except.ok ps, calls) => (Except.ok (p :: ps), msgs :: calls)
      | (Except.error c, calls) => (Except.error c, msgs :: calls)

/-- Embedding of `DocumentSummarizer.summarise_document`.  The external LLM
transport (`_make_api_call`) is a parameter mapping a request to the raw reply
text; the second component records every API request issued, in order.  The
`try/except` of the source re-raises unchanged, so errors propagate directly. -/
def summariseDocument (llm : List ChatMessage → List Char) (text : List Char) :
    Except SummError Json × List (List ChatMessage) :=
  if text = [] ∨ (pyStrip text).length < 50 then
    (Except.error SummError.tooShort, [])
  else if text.length ≤ 12000 then
    ((forceJson (llm (singlePassMessages text))).mapError SummError.parseFailed,
      [singlePassMessages text])
  else
    match processChunks llm (chunkText text 12000 500).length (chunkText text 12000 500) 1 with
    | (Except.error c, calls) => (Except.error (SummError.parseFailed c), calls)
    | (Except.ok partials, calls) =>
      ((forceJson (llm (aggregatorMessages partials))).mapError SummError.parseFailed,
        calls ++ [aggregatorMessages partials])

/-- The pipeline steps of the HTTP handlers that matter to validation
ordering. -/
inductive AppEvent where
  | validatorCall
  | summarizerCall
deriving DecidableEq

/-- Call sequence of `POST /summarize` (`app.py`) after text extraction: the
length gate, then `validate_document_content`, and `summarise_document` only
when the validator accepts. -/
def summarizeEndpointEvents (text : List Char) : List AppEvent :=
  if text = [] ∨ (pyStrip text).length < 50 then []
  else if (validateDocumentContent defaultTables text).1 then
    [AppEvent.validatorCall, AppEvent.summarizerCall]
  else [AppEvent.validatorCall]

/-- Call sequence of `POST /summarize/docx` (`app.py`) after text extraction:
the length gate and then directly `summarise_document` — the handler contains
no call to the validator. -/
def summarizeDocxEndpointEvents (text : List Char) : List AppEvent :=
  if text = [] ∨ (pyStrip text).length < 50 then []
  else [AppEvent.summarizerCall]

/-- A short recipe-style text: long enough for both length gates, rich in
non-legal indicators, free of legal keywords. -/
def recipeText : List Char :=
  ("Chop the onions and add the ingredients to the pan. This recipe is easy cooking: bake the bread, cook the meal, serve the food warm and enjoy every single bite today.").toList

/-- A legal-sounding text above the 50-character gate and below the
single-pass threshold. -/
def demoDocText : List Char :=
  ("This agreement is made between the parties and sets out the terms and conditions that will apply to the employment of the employee.").toList

/-- An LLM stub that always replies with text that is not JSON. -/
def constOopsLLM : List ChatMessage → List Char :=
  fun _ => "oops".toList

/-- An LLM stub that always replies with the empty string. -/
def constEmptyLLM : List ChatMessage → List Char :=
  fun _ => []

theorem glueChunks_cons (ov : Nat) (c : List Char) (cs : List (List Char)) :
    glueChunks ov (c :: cs) = c.drop ov ++ glueChunks ov cs := by
  simp [glueChunks]

/-- Gluing the chunks produced from position `i` (dropping the overlap from
every one of them) yields exactly the text from position `i + overlap` on. -/
theorem glueChunks_chunkLoop (text : List Char) (maxChars overlap : Nat)
    (hov : overlap < maxChars) :
    ∀ fuel i, text.length - i ≤ fuel * (maxChars - overlap) →
      glueChunks overlap (chunkLoop text maxChars overlap fuel i) =
        text.drop (i + overlap) := by
  intro fuel
  induction fuel with
  | zero =>
    intro i h
    rw [Nat.zero_mul] at h
    have hle : text.length ≤ i + overlap := by omega
    simp [chunkLoop, glueChunks, List.drop_eq_nil_of_le hle]
  | succ fuel ih =>
    intro i h
    by_cases hi : i < text.length
    · simp only [chunkLoop]
      rw [if_pos hi]
      by_cases he : min (i + maxChars) text.length = text.length
      · rw [if_pos he, he]
        have hlen : (text.drop i).take (text.length - i) = text.drop i := by
          rw [← List.length_drop i text, List.take_length]
        rw [hlen]
        simp only [glueChunks, List.map, List.flatten]
        rw [List.append_nil, List.drop_drop]
      · rw [if_neg he]
        have h1 : i + maxChars < text.length := by
          rcases Nat.lt_or_ge (i + maxChars) text.length with hlt | hge
          · exact hlt
          · exact absurd (Nat.min_eq_right hge) he
        have hmin : min (i + maxChars) text.length = i + maxChars :=
          Nat.min_eq_left (by omega)
        rw [hmin, glueChunks_cons]
        have hsm : (fuel + 1) * (maxChars - overlap) =
            fuel * (maxChars - overlap) + (maxChars - overlap) := Nat.succ_mul _ _
        rw [ih (i + maxChars - overlap) (by omega)]
        have e0 : i + maxChars - i = maxChars := by omega
        have e1 : i + maxChars - overlap + overlap = i + maxChars := by omega
        rw [e0, e1, List.drop_take, List.drop_drop]
        have e2 : text.drop (i + maxChars) =
            (text.drop (i + overlap)).drop (maxChars - overlap) := by
          rw [List.drop_drop]
          congr 1
          omega
        rw [e2, List.take_append_drop]
    · have hle : text.length ≤ i + overlap := by omega
      simp [chunkLoop, hi, glueChunks, List.drop_eq_nil_of_le hle]

/-- Number of chunks produced from position `i`: the ceiling of
`(length - i - overlap) / (maxChars - overlap)`, written over `Nat`. -/
theorem chunkLoop_length (text : List Char) (maxChars overlap : Nat)
    (hov : overlap < maxChars) :
    ∀ fuel i, i + overlap < text.length →
      text.length - i ≤ fuel * (maxChars - overlap) →
      (chunkLoop text maxChars overlap fuel i).length =
        (text.length - i - overlap + (maxChars - overlap) - 1) / (maxChars - overlap) := by
  intro fuel
  induction fuel with
  | zero =>
    intro i hi h
    rw [Nat.zero_mul] at h
    omega
  | succ fuel ih =>
    intro i hi h
    have hilt : i < text.length := by omega
    simp only [chunkLoop]
    rw [if_pos hilt]
    by_cases he : min (i + maxChars) text.length = text.length
    · rw [if_pos he]
      have hle : text.length ≤ i + maxChars := by
        rcases Nat.lt_or_ge (i + maxChars) text.length with hlt | hge
        · exact absurd (Nat.min_eq_left (by omega)) (by rw [he]; omega)
        · exact hge
      have e1 : text.length - i - overlap + (maxChars - overlap) - 1 =
          (text.length - i - overlap - 1) + (maxChars - overlap) := by omega
      rw [List.length_singleton, e1,
        Nat.add_div_right _ (by omega : 0 < maxChars - overlap),
        Nat.div_eq_of_lt (by omega)]
    · rw [if_neg he]
      have h1 : i + maxChars < text.length := by
        rcases Nat.lt_or_ge (i + maxChars) text.length with hlt | hge
        · exact hlt
        · exact absurd (Nat.min_eq_right hge) he
      have hmin : min (i + maxChars) text.length = i + maxChars :=
        Nat.min_eq_left (by omega)
      have hsm : (fuel + 1) * (maxChars - overlap) =
          fuel * (maxChars - overlap) + (maxChars - overlap) := Nat.succ_mul _ _
      rw [hmin, List.length_cons, ih (i + maxChars - overlap) (by omega) (by omega)]
      have e2 : text.length - i - overlap + (maxChars - overlap) - 1 =
          (text.length - (i + maxChars - overlap) - overlap + (maxChars - overlap) - 1) +
            (maxChars - overlap) := by omega
      rw [e2, Nat.add_div_right _ (by omega : 0 < maxChars - overlap)]

/-- Every position of the text is inside the span of some chunk produced from
position `i`, provided scanning starts at or before that position. -/
theorem chunkLoop_coverage (text : List Char) (maxChars overlap : Nat)
    (hov : overlap < maxChars) :
    ∀ fuel i n, i ≤ n → n < text.length →
      text.length - i ≤ fuel * (maxChars - overlap) →
      ∃ c ∈ chunkLoop text maxChars overlap fuel i, ∃ s,
        c = (text.drop s).take c.length ∧ s ≤ n ∧ n < s + c.length := by
  intro fuel
  induction fuel with
  | zero =>
    intro i n hin hn h
    rw [Nat.zero_mul] at h
    omega
  | succ fuel ih =>
    intro i n hin hn h
    have hi : i < text.length := by omega
    simp only [chunkLoop]
    rw [if_pos hi]
    by_cases he : min (i + maxChars) text.length = text.length
    · rw [if_pos he, he]
      refine ⟨_, List.mem_singleton_self _, i, ?_, hin, ?_⟩
      · rw [List.length_take, List.length_drop, Nat.min_self]
      · rw [List.length_take, List.length_drop, Nat.min_self]
        omega
    · rw [if_neg he]
      have h1 : i + maxChars < text.length := by
        rcases Nat.lt_or_ge (i + maxChars) text.length with hlt | hge
        · exact hlt
        · exact absurd (Nat.min_eq_right hge) he
      have hmin : min (i + maxChars) text.length = i + maxChars :=
        Nat.min_eq_left (by omega)
      have hsm : (fuel + 1) * (maxChars - overlap) =
          fuel * (maxChars - overlap) + (maxChars - overlap) := Nat.succ_mul _ _
      by_cases hn2 : n < i + maxChars
      · refine ⟨_, List.mem_cons_self _ _, i, ?_, hin, ?_⟩
        · rw [hmin, List.length_take, List.length_drop]
          congr 1
          omega
        · rw [hmin, List.length_take, List.length_drop]
          have : i + maxChars - i = maxChars := by omega
          rw [this]
          have : min maxChars (text.length - i) = maxChars := Nat.min_eq_left (by omega)
          rw [this]
          omega
      · rw [hmin]
        obtain ⟨c, hc, s, h3⟩ := ih (i + maxChars - overlap) n (by omega) hn (by omega)
        exact ⟨c, List.mem_cons_of_mem _ hc, s, h3⟩

/-- C2: for every text longer than `maxChars` (with `0 < overlap < maxChars`),
concatenating the chunks of `_chunk_text` after removing the first `overlap`
characters from every chunk except the first reconstructs the text exactly,
and every character position of the text lies inside the span of at least one
chunk. -/
theorem chunk_roundtrip_and_coverage (text : List Char) (maxChars overlap n : Nat)
    (h0 : 0 < overlap) (hov : overlap < maxChars) (hlen : maxChars < text.length) :
    reassemble overlap (chunkText text maxChars overlap) = text ∧
    (n < text.length →
      ∃ c ∈ chunkText text maxChars overlap, ∃ s,
        c = (text.drop s).take c.length ∧ s ≤ n ∧ n < s + c.length) := by
  have hfuel : text.length - 0 ≤ (text.length + 1) * (maxChars - overlap) := by
    have hB : 1 ≤ maxChars - overlap := by omega
    have := Nat.mul_le_mul_left (text.length + 1) hB
    omega
  constructor
  · unfold chunkText
    rw [if_neg (by omega)]
    simp only [chunkLoop]
    rw [if_pos (by omega : 0 < text.length)]
    have hmin : min (0 + maxChars) text.length = maxChars := by
      rw [Nat.zero_add]
      exact Nat.min_eq_left (by omega)
    rw [hmin, if_neg (by omega : ¬ maxChars = text.length)]
    show (text.drop 0).take (maxChars - 0) ++
        glueChunks overlap (chunkLoop text maxChars overlap text.length (maxChars - overlap)) = text
    have hfuel2 : text.length - (maxChars - overlap) ≤
        text.length * (maxChars - overlap) := by
      have hB : 1 ≤ maxChars - overlap := by omega
      have := Nat.mul_le_mul_left text.length hB
      omega
    rw [glueChunks_chunkLoop text maxChars overlap hov text.length (maxChars - overlap) hfuel2]
    have e1 : maxChars - overlap + overlap = maxChars := by omega
    rw [e1, List.drop_zero, Nat.sub_zero, List.take_append_drop]
  · intro hn
    unfold chunkText
    rw [if_neg (by omega)]
    exact chunkLoop_coverage text maxChars overlap hov (text.length + 1) 0 n
      (Nat.zero_le n) hn hfuel

/-- Witness for C2 at `text = "abcde"`, `maxChars = 3`, `overlap = 1`,
position `n = 2`. -/
theorem chunk_roundtrip_and_coverage_witness :
    reassemble 1 (chunkText "abcde".toList 3 1) = "abcde".toList ∧
    (∃ c ∈ chunkText "abcde".toList 3 1, ∃ s,
      c = ("abcde".toList.drop s).take c.length ∧ s ≤ 2 ∧ 2 < s + c.length) :=
  ⟨(chunk_roundtrip_and_coverage "abcde".toList 3 1 2 (by decide) (by decide) (by decide)).1,
   (chunk_roundtrip_and_coverage "abcde".toList 3 1 2 (by decide) (by decide)
      (by decide)).2 (by decide)⟩

/-- C3: a text at most `maxChars` long yields the single chunk `[text]`; a
longer text (with `0 < overlap < maxChars`) yields exactly
`ceil((len - overlap) / (maxChars - overlap))` chunks, and in particular a
25000-character text with the default `maxChars = 12000`, `overlap = 500`
yields exactly 3 chunks. -/
theorem chunk_count (text : List Char) (maxChars overlap : Nat) :
    (text.length ≤ maxChars → chunkText text maxChars overlap = [text]) ∧
    (0 < overlap → overlap < maxChars → maxChars < text.length →
      (chunkText text maxChars overlap).length =
        (text.length - overlap + (maxChars - overlap) - 1) / (maxChars - overlap)) ∧
    (chunkText (List.replicate 25000 'a') 12000 500).length = 3 := by
  refine ⟨fun h => by simp [chunkText, h], fun h0 hov hlen => ?_, ?_⟩
  · unfold chunkText
    rw [if_neg (by omega)]
    have hfuel : text.length - 0 ≤ (text.length + 1) * (maxChars - overlap) := by
      have hB : 1 ≤ maxChars - overlap := by omega
      have := Nat.mul_le_mul_left (text.length + 1) hB
      omega
    rw [chunkLoop_length text maxChars overlap hov (text.length + 1) 0 (by omega) hfuel]
    rw [Nat.sub_zero]
  · have hlen : (List.replicate 25000 'a').length = 25000 := List.length_replicate 25000 'a'
    unfold chunkText
    rw [hlen]
    rw [if_neg (by norm_num)]
    have hfuel : (List.replicate 25000 'a').length - 0 ≤ 25001 * (12000 - 500) := by
      rw [hlen]; norm_num
    have h := chunkLoop_length (List.replicate 25000 'a') 12000 500 (by norm_num)
      25001 0 (by rw [hlen]; norm_num) hfuel
    rw [hlen] at h
    rw [h]

/-- Witness for C3: the single-chunk case at `"ab"` and the counting formula
at `"abcde"` with `maxChars = 3`, `overlap = 1`. -/
theorem chunk_count_witness :
    chunkText "ab".toList 3 1 = ["ab".toList] ∧
    (chunkText "abcde".toList 3 1).length =
      ("abcde".toList.length - 1 + (3 - 1) - 1) / (3 - 1) :=
  ⟨(chunk_count "ab".toList 3 1).1 (by decide),
   (chunk_count "abcde".toList 3 1).2.1 (by decide) (by decide) (by decide)⟩

theorem fracQ_nonneg (c n : Nat) : 0 ≤ (c : ℚ) / (n : ℚ) := by positivity

theorem fracQ_le_one (c n : Nat) (hc : c ≤ n) (hn : 0 < n) : (c : ℚ) / (n : ℚ) ≤ 1 := by
  rw [div_le_one (by exact_mod_cast hn)]
  exact_mod_cast hc

theorem confidenceScoreQ_nonneg (tb : ValidatorTables) (tl : List Char) :
    0 ≤ confidenceScoreQ tb tl :=
  le_max_left 0 _

theorem confidenceScoreQ_le_one (tl : List Char) :
    confidenceScoreQ defaultTables tl ≤ 1 := by
  unfold confidenceScoreQ
  refine max_le (by norm_num) ?_
  have h1 := fracQ_le_one (legalWordCount defaultTables tl)
    defaultTables.legalKeywords.length
    (by unfold legalWordCount; exact List.length_filter_le _ _) (by decide)
  have h2 := fracQ_le_one (patternMatchCount defaultTables tl)
    defaultTables.legalPatterns.length
    (by unfold patternMatchCount; exact List.length_filter_le _ _) (by decide)
  have h3 := fracQ_nonneg (nonLegalCount defaultTables tl)
    defaultTables.nonLegalIndicators.length
  have h4 := fracQ_nonneg (legalWordCount defaultTables tl)
    defaultTables.legalKeywords.length
  have h5 := fracQ_nonneg (patternMatchCount defaultTables tl)
    defaultTables.legalPatterns.length
  unfold legalScoreQ legalWordFrac patternFrac nonLegalFrac
  linarith

/-- C8: the confidence score returned by `validate_document_content` always
lies in `[0, 1]`, and on texts passing both length gates it equals
`max(0, 0.6 * legalWordRatio + 0.4 * patternRatio - 0.3 * nonLegalRatio)`,
each ratio being a presence count divided by the size of its fixed table. -/
theorem confidence_score_bounds (text : List Char) :
    0 ≤ (validateDocumentContent defaultTables text).2.2 ∧
    (validateDocumentContent defaultTables text).2.2 ≤ 1 ∧
    (50 ≤ (pyStrip text).length → 20 ≤ (pySplit (pyLower text)).length →
      (validateDocumentContent defaultTables text).2.2 =
        max 0 ((legalWordCount defaultTables (pyLower text) : ℚ) /
            (defaultTables.legalKeywords.length : ℚ) * 0.6 +
          (patternMatchCount defaultTables (pyLower text) : ℚ) /
            (defaultTables.legalPatterns.length : ℚ) * 0.4 -
          (nonLegalCount defaultTables (pyLower text) : ℚ) /
            (defaultTables.nonLegalIndicators.length : ℚ) * 0.3)) := by
  have hval : (validateDocumentContent defaultTables text).2.2 = 0 ∨
      (validateDocumentContent defaultTables text).2.2 =
        confidenceScoreQ defaultTables (pyLower text) := by
    unfold validateDocumentContent
    split_ifs <;> simp
  refine ⟨?_, ?_, ?_⟩
  · rcases hval with h | h
    · rw [h]
    · rw [h]
      exact confidenceScoreQ_nonneg _ _
  · rcases hval with h | h
    · rw [h]
      norm_num
    · rw [h]
      exact confidenceScoreQ_le_one _
  · intro hg1 hg2
    have hne : ¬(text = [] ∨ (pyStrip text).length < 50) := by
      rintro (rfl | hlt)
      · exact absurd hg1 (by decide)
      · omega
    have hw : ¬((pySplit (pyLower text)).length < 20) := by omega
    unfold validateDocumentContent
    rw [if_neg hne, if_neg hw]
    split_ifs <;> rfl

/-- Witness for C8 at the concrete recipe text, which passes both gates. -/
theorem confidence_score_bounds_witness :
    0 ≤ (validateDocumentContent defaultTables recipeText).2.2 ∧
    (validateDocumentContent defaultTables recipeText).2.2 ≤ 1 ∧
    (validateDocumentContent defaultTables recipeText).2.2 =
      max 0 ((legalWordCount defaultTables (pyLower recipeText) : ℚ) /
          (defaultTables.legalKeywords.length : ℚ) * 0.6 +
        (patternMatchCount defaultTables (pyLower recipeText) : ℚ) /
          (defaultTables.legalPatterns.length : ℚ) * 0.4 -
        (nonLegalCount defaultTables (pyLower recipeText) : ℚ) /
          (defaultTables.nonLegalIndicators.length : ℚ) * 0.3) :=
  ⟨(confidence_score_bounds recipeText).1,
   (confidence_score_bounds recipeText).2.1,
   (confidence_score_bounds recipeText).2.2 (by decide) (by decide)⟩

/-- C7: for any tables whatsoever, a text whose trimmed length is below 50 or
with fewer than 20 whitespace-delimited words is rejected with confidence 0
and a too-short reason; the quantification over the tables witnesses that the
keyword, pattern and indicator tables play no role in the outcome. -/
theorem validator_short_input_short_circuits (tb : ValidatorTables) (text : List Char)
    (h : (pyStrip text).length < 50 ∨ (pySplit (pyLower text)).length < 20) :
    (validateDocumentContent tb text).1 = false ∧
    (validateDocumentContent tb text).2.2 = 0 ∧
    ((validateDocumentContent tb text).2.1 = "Document is too short to analyze" ∨
     (validateDocumentContent tb text).2.1 = "Document is too short to be a legal document") := by
  by_cases h1 : text = [] ∨ (pyStrip text).length < 50
  · simp [validateDocumentContent, h1]
  · have h2 : (pySplit (pyLower text)).length < 20 := by
      rcases h with hs | hw
      · exact absurd (Or.inr hs) h1
      · exact hw
    simp [validateDocumentContent, h1, h2]

/-- Witness for C7 at the two-character text `"hi"`. -/
theorem validator_short_input_short_circuits_witness :
    ((pyStrip "hi".toList).length < 50 ∨ (pySplit (pyLower "hi".toList)).length < 20) ∧
    (validateDocumentContent defaultTables "hi".toList).1 = false ∧
    (validateDocumentContent defaultTables "hi".toList).2.2 = 0 ∧
    ((validateDocumentContent defaultTables "hi".toList).2.1 =
        "Document is too short to analyze" ∨
     (validateDocumentContent defaultTables "hi".toList).2.1 =
        "Document is too short to be a legal document") :=
  ⟨Or.inl (by decide),
   validator_short_input_short_circuits defaultTables "hi".toList (Or.inl (by decide))⟩

/-- C9: a text passing both length gates but scoring below the 0.15 threshold
is rejected; when the non-legal ratio exceeds 0.1 the reason is chosen by
testing the recipe, fiction, code, personal-message and education indicator
subsets in that fixed order with the first match winning, and otherwise the
generic no-legal-content reason is returned. -/
theorem rejected_reason_priority (text : List Char)
    (h1 : 50 ≤ (pyStrip text).length)
    (h2 : 20 ≤ (pySplit (pyLower text)).length)
    (h3 : confidenceScoreQ defaultTables (pyLower text) < (0.15 : ℚ)) :
    validateDocumentContent defaultTables text =
      (false,
        if nonLegalFrac defaultTables (pyLower text) > (0.1 : ℚ) then
          (if anyHas (pyLower text) ["recipe", "cooking", "ingredients", "bake"] then
            "This appears to be a recipe or cooking document, not a legal document"
          else if anyHas (pyLower text) ["story", "novel", "chapter", "fiction"] then
            "This appears to be a story or fictional content, not a legal document"
          else if anyHas (pyLower text) ["code", "function", "import", "programming"] then
            "This appears to be source code or technical documentation, not a legal document"
          else if anyHas (pyLower text) ["email", "message", "chat", "conversation"] then
            "This appears to be a personal message or email, not a legal document"
          else if anyHas (pyLower text) ["homework", "assignment", "school", "student"] then
            "This appears to be educational content, not a legal document"
          else "Document does not appear to contain legal content")
        else "Document does not appear to contain legal content",
        confidenceScoreQ defaultTables (pyLower text)) := by
  have hne : ¬(text = [] ∨ (pyStrip text).length < 50) := by
    rintro (rfl | hlt)
    · exact absurd h1 (by decide)
    · omega
  have hw : ¬((pySplit (pyLower text)).length < 20) := by omega
  have hc : ¬(confidenceScoreQ defaultTables (pyLower text) ≥ (0.15 : ℚ)) :=
    not_le.mpr h3
  unfold validateDocumentContent
  rw [if_neg hne, if_neg hw, if_neg hc]
  by_cases hn : nonLegalFrac defaultTables (pyLower text) > (0.1 : ℚ)
  · rw [if_pos hn, if_pos hn]
    rfl
  · rw [if_neg hn, if_neg hn]

/-- Witness for C9 at the concrete recipe text (both gates pass, score below
threshold, non-legal ratio 7/60 above 0.1, recipe subset present). -/
theorem rejected_reason_priority_witness :
    validateDocumentContent defaultTables recipeText =
      (false, "This appears to be a recipe or cooking document, not a legal document",
        confidenceScoreQ defaultTables (pyLower recipeText)) := by
  have hlw : legalWordCount defaultTables (pyLower recipeText) = 0 := by decide
  have hpm : patternMatchCount defaultTables (pyLower recipeText) = 0 := by decide
  have hnl : nonLegalCount defaultTables (pyLower recipeText) = 7 := by decide
  have hk : defaultTables.legalKeywords.length = 81 := by decide
  have hp : defaultTables.legalPatterns.length = 12 := by decide
  have hi : defaultTables.nonLegalIndicators.length = 60 := by decide
  have hconf : confidenceScoreQ defaultTables (pyLower recipeText) < (0.15 : ℚ) := by
    unfold confidenceScoreQ legalScoreQ legalWordFrac patternFrac nonLegalFrac
    rw [hlw, hpm, hnl, hk, hp, hi]
    rw [max_eq_left (by norm_num)]
    norm_num
  have hfrac : nonLegalFrac defaultTables (pyLower recipeText) > (0.1 : ℚ) := by
    unfold nonLegalFrac
    rw [hnl, hi]
    norm_num
  have h := rejected_reason_priority recipeText (by decide) (by decide) hconf
  rw [h, if_pos hfrac,
    if_pos (by decide :
      anyHas (pyLower recipeText) ["recipe", "cooking", "ingredients", "bake"] = true)]

/-- Supporting fact: the `/summarize` handler never reaches the summarizer
when the validator rejects the text. -/
theorem summarize_endpoint_validates_first (text : List Char)
    (h : (validateDocumentContent defaultTables text).1 = false) :
    AppEvent.summarizerCall ∉ summarizeEndpointEvents text := by
  unfold summarizeEndpointEvents
  split_ifs with h1 h2
  · simp
  · rw [h] at h2
    cases h2
  · simp

/-- C1 fails on the code: the recipe text is rejected by
`validate_document_content`, yet the `/summarize/docx` handler still reaches
`summarise_document` — its event sequence contains the summarizer call and no
validator call, because `summarize_docx` never invokes the validator. -/
theorem docx_endpoint_summarizes_rejected_document :
    (validateDocumentContent defaultTables recipeText).1 = false ∧
    summarizeDocxEndpointEvents recipeText = [AppEvent.summarizerCall] ∧
    AppEvent.validatorCall ∉ summarizeDocxEndpointEvents recipeText := by
  refine ⟨?_, by decide, by decide⟩
  have hlw : legalWordCount defaultTables (pyLower recipeText) = 0 := by decide
  have hpm : patternMatchCount defaultTables (pyLower recipeText) = 0 := by decide
  have hnl : nonLegalCount defaultTables (pyLower recipeText) = 7 := by decide
  have hk : defaultTables.legalKeywords.length = 81 := by decide
  have hp : defaultTables.legalPatterns.length = 12 := by decide
  have hi : defaultTables.nonLegalIndicators.length = 60 := by decide
  have hconf : confidenceScoreQ defaultTables (pyLower recipeText) < (0.15 : ℚ) := by
    unfold confidenceScoreQ legalScoreQ legalWordFrac patternFrac nonLegalFrac
    rw [hlw, hpm, hnl, hk, hp, hi]
    rw [max_eq_left (by norm_num)]
    norm_num
  have hfrac : nonLegalFrac defaultTables (pyLower recipeText) > (0.1 : ℚ) := by
    unfold nonLegalFrac
    rw [hnl, hi]
    norm_num
  unfold validateDocumentContent
  rw [if_neg (by decide : ¬(recipeText = [] ∨ (pyStrip recipeText).length < 50)),
    if_neg (by decide : ¬((pySplit (pyLower recipeText)).length < 20)),
    if_neg (not_le.mpr hconf), if_pos hfrac]

/-- C4 fails on the code: `_force_json` performs no post-processing, so a
successfully parsed object without an `actions` key is returned without one —
no default action list is injected anywhere in the source. -/
theorem forceJson_no_actions_injected :
    forceJson ("\x7b\"a\": 1\x7d".toList) =
      Except.ok (Json.obj [("a".toList, Json.num 1)]) ∧
    Json.hasKey (Json.obj [("a".toList, Json.num 1)]) ("actions".toList) = false :=
  ⟨rfl, rfl⟩

/-- C4 amended: on success `_force_json` returns exactly the value parsed
from its candidate string, unchanged — in particular no `actions` field is
ever added. -/
theorem forceJson_returns_parsed_value (s : List Char) (v : Json)
    (h : forceJson s = Except.ok v) :
    jsonLoads (extractCandidate s) = some v := by
  unfold forceJson at h
  cases hj : jsonLoads (extractCandidate s) with
  | none =>
    rw [hj] at h
    cases h
  | some w =>
    rw [hj] at h
    cases h
    rfl

/-- Witness for the amended C4 at a concrete successful extraction. -/
theorem forceJson_returns_parsed_value_witness :
    jsonLoads (extractCandidate ("\x7b\"ok\": true\x7d".toList)) =
      some (Json.obj [("ok".toList, Json.bool true)]) :=
  forceJson_returns_parsed_value ("\x7b\"ok\": true\x7d".toList)
    (Json.obj [("ok".toList, Json.bool true)]) rfl

/-- C5 fails on the code: the input `123` contains no brace at all, yet
`_force_json` succeeds and returns the parsed number instead of raising. -/
theorem forceJson_braceless_valid_json_returns :
    ("123".toList.filter (fun c => c == '\x7b' || c == '\x7d')) = [] ∧
    forceJson "123".toList = Except.ok (Json.num 123) :=
  ⟨rfl, rfl⟩

/-- C5 amended: `_force_json` fails exactly when its candidate string — the
fence-stripped input, cut to the inclusive span between the first opening and
last closing brace when that span is proper — is not valid JSON; a brace-free
input that is itself valid JSON is returned successfully. -/
theorem forceJson_fails_iff_candidate_invalid (s : List Char) :
    (forceJson s).isOk = false ↔ jsonLoads (extractCandidate s) = none := by
  unfold forceJson
  cases hj : jsonLoads (extractCandidate s) <;> simp [Except.isOk, Except.toBool]

/-- C6 fails on the code: with an LLM stub that always replies `oops`,
`summarise_document` on a single-pass text issues exactly one API request and
surfaces the parse failure immediately — there is no second (retry) request. -/
theorem summarise_document_does_not_retry :
    summariseDocument constOopsLLM demoDocText =
      (Except.error (SummError.parseFailed ("oops".toList)),
        [singlePassMessages demoDocText]) ∧
    (summariseDocument constOopsLLM demoDocText).2.length = 1 :=
  ⟨rfl, rfl⟩

/-- C6 amended: when `_force_json` fails on the single-pass reply, the error
propagates after exactly one API request (the source has no retry), and the
raised error carries the JSON parse failure of the candidate string — the raw
reply itself is only printed to the server log. -/
theorem summarise_malformed_fails_after_single_attempt
    (llm : List ChatMessage → List Char) (text c : List Char)
    (h1 : 50 ≤ (pyStrip text).length) (h2 : text.length ≤ 12000)
    (h3 : forceJson (llm (singlePassMessages text)) = Except.error c) :
    summariseDocument llm text =
      (Except.error (SummError.parseFailed c), [singlePassMessages text]) := by
  have hne : ¬(text = [] ∨ (pyStrip text).length < 50) := by
    rintro (rfl | hlt)
    · exact absurd h1 (by decide)
    · omega
  unfold summariseDocument
  rw [if_neg hne, if_pos h2, h3]
  rfl

/-- Witness for the amended C6 at the demo text and the `oops` stub. -/
theorem summarise_malformed_fails_after_single_attempt_witness :
    summariseDocument constOopsLLM demoDocText =
      (Except.error (SummError.parseFailed ("oops".toList)),
        [singlePassMessages demoDocText]) :=
  summarise_malformed_fails_after_single_attempt constOopsLLM demoDocText
    ("oops".toList) (by decide) (by decide) rfl

theorem dropWhile_eq_self_of_all (l : List Char) (h : ∀ c ∈ l, isPyWs c = false) :
    l.dropWhile isPyWs = l := by
  cases l with
  | nil => rfl
  | cons a t =>
    rw [List.dropWhile_cons, h a (List.mem_cons_self a t)]
    simp

theorem pyStrip_eq_self_of_all (l : List Char) (h : ∀ c ∈ l, isPyWs c = false) :
    pyStrip l = l := by
  unfold pyStrip
  rw [dropWhile_eq_self_of_all l h,
    dropWhile_eq_self_of_all l.reverse (fun c hc => h c (List.mem_reverse.mp hc)),
    List.reverse_reverse]

theorem dropWhile_eq_nil_of_all (l : List Char) (h : ∀ c ∈ l, isPyWs c = true) :
    l.dropWhile isPyWs = [] := by
  induction l with
  | nil => rfl
  | cons a t ih =>
    rw [List.dropWhile_cons, h a (List.mem_cons_self a t), if_pos rfl]
    exact ih (fun c hc => h c (List.mem_cons_of_mem a hc))

theorem pyStrip_eq_nil_of_all (l : List Char) (h : ∀ c ∈ l, isPyWs c = true) :
    pyStrip l = [] := by
  unfold pyStrip
  rw [dropWhile_eq_nil_of_all l h]
  rfl

/-- C10 fails as stated for whitespace-only input: a text of 10001 blanks is
within the claimed length range but is rejected as too short before any API
request, so the single-pass path is not taken. -/
theorem single_pass_not_taken_for_whitespace_text :
    10000 < (List.replicate 10001 ' ').length ∧
    (List.replicate 10001 ' ').length ≤ 12000 ∧
    summariseDocument constEmptyLLM (List.replicate 10001 ' ') =
      (Except.error SummError.tooShort, []) := by
  refine ⟨?_, ?_, ?_⟩
  · rw [List.length_replicate]
    omega
  · rw [List.length_replicate]
    omega
  · have hws : ∀ c ∈ List.replicate 10001 ' ', isPyWs c = true := by
      intro c hc
      rw [List.eq_of_mem_replicate hc]
      rfl
    have hnil : pyStrip (List.replicate 10001 ' ') = [] := pyStrip_eq_nil_of_all _ hws
    unfold summariseDocument
    rw [if_pos (Or.inr (by rw [hnil]; decide))]

/-- C10 amended: for a text in the range `10000 < len <= 12000` whose trimmed
length passes the 50-character gate, `summarise_document` issues exactly the
one single-pass request, and the user prompt embeds only `text[:10000]` — it
is unchanged when the characters beyond position 10000 are removed. -/
theorem single_pass_embeds_first_10000
    (llm : List ChatMessage → List Char) (text : List Char)
    (h1 : 50 ≤ (pyStrip text).length) (h2 : 10000 < text.length)
    (h3 : text.length ≤ 12000) :
    summariseDocument llm text =
      ((forceJson (llm (singlePassMessages text))).mapError SummError.parseFailed,
        [singlePassMessages text]) ∧
    singlePassUserPrompt text = singlePassUserPrompt (text.take 10000) := by
  constructor
  · have hne : ¬(text = [] ∨ (pyStrip text).length < 50) := by
      rintro (rfl | hlt)
      · exact absurd h1 (by decide)
      · omega
    unfold summariseDocument
    rw [if_neg hne, if_pos h3]
  · unfold singlePassUserPrompt
    rw [List.take_take]
    simp

/-- Witness for the amended C10 at a 10001-character text. -/
theorem single_pass_embeds_first_10000_witness :
    summariseDocument constEmptyLLM (List.replicate 10001 'a') =
      ((forceJson (constEmptyLLM (singlePassMessages (List.replicate 10001 'a')))).mapError
          SummError.parseFailed,
        [singlePassMessages (List.replicate 10001 'a')]) ∧
    singlePassUserPrompt (List.replicate 10001 'a') =
      singlePassUserPrompt ((List.replicate 10001 'a').take 10000) :=
  single_pass_embeds_first_10000 constEmptyLLM (List.replicate 10001 'a')
    (by
      rw [pyStrip_eq_self_of_all _ (fun c hc => by rw [List.eq_of_mem_replicate hc]; rfl),
        List.length_replicate]
      omega)
    (by rw [List.length_replicate]; omega)
    (by rw [List.length_replicate]; omega)
